import Mathlib

/-!
BioGas monitoring backend (`src/store.js`)

A shallow embedding of the three Express routes of `src/store.js` over the
`SensorData` collection, and the properties of the export-and-purge workflow,
the recent-readings query and the ingestion route.

Modelling conventions.

* A JavaScript `Date` is its time value: an `Int` of milliseconds since the epoch.
* Sensor numbers are carried around unchanged by every route (no arithmetic is
  done on them); they are modelled as `Int` payloads.
* The MongoDB collection is the list of its documents in insertion order.  The
  unique index on `_id` is the invariant `UniqueIds`; an insert of an `_id`
  that is already present is rejected by the store (duplicate key).
* Everything the environment decides is an explicit input: the clock, the
  `ObjectId` of a new document, whether a store call rejects, whether
  `XLSX.write` throws, which of the events `finish` / `error` the response
  emits, and the `POST /sensorData` requests served while an export is
  suspended between its query and that event.
* A promise that rejects where no handler catches it ends the process (the
  default of Node.js since version 15): `run` serves nothing after it.
* `sort` is a stable sort: documents with equal timestamps keep their
  insertion order.  No theorem below depends on how ties are broken except
  where it evaluates a concrete store.
-/

namespace Biogas

/-! ## Data model (`sensorSchema`, lines 24-35) -/

/-- A document of the `SensorData` collection: the schema paths `ph`, `pressure1`,
`pressure2`, `pressure3`, `temperature` (each `Number`, optional), `timestamp`
(`Date`, always set because of its default), and the bookkeeping paths `_id` and `__v`
that Mongoose adds. -/
structure Reading where
  _id : Nat
  ph : Option Int
  pressure1 : Option Int
  pressure2 : Option Int
  pressure3 : Option Int
  temperature : Option Int
  timestamp : Int
  __v : Nat
deriving DecidableEq, Repr

/-- The body of `POST /sensorData` as the schema reads it: any subset of the numeric
paths and an optional `timestamp` (strict mode drops every other key). -/
structure ReqBody where
  ph : Option Int
  pressure1 : Option Int
  pressure2 : Option Int
  pressure3 : Option Int
  temperature : Option Int
  timestamp : Option Int
deriving DecidableEq, Repr

/-- The `SensorData` collection, in insertion order. -/
abbrev Store := List Reading

/-- The unique index on `_id`. -/
def UniqueIds (s : Store) : Prop := (s.map (fun d => d._id)).Nodup

instance UniqueIds_decidable (s : Store) : Decidable (UniqueIds s) :=
  inferInstanceAs (Decidable (List.map (fun d : Reading => d._id) s).Nodup)

/-- A rejected store call. -/
inductive StoreError where
  | failed
  | duplicateKey
deriving DecidableEq, Repr

/-! ## The store operations the routes issue -/

/-- Outcome of an awaited store call: it rejects when the environment says so,
otherwise it resolves with `result`. -/
def await {α : Type} (fails : Bool) (result : α) : Except StoreError α :=
  if fails then Except.error StoreError.failed else Except.ok result

/-- The `sensorData.save()` of a new document: an insert, rejected on a duplicate `_id`. -/
def save (s : Store) (doc : Reading) (fails : Bool) : Except StoreError Store :=
  if fails then Except.error StoreError.failed
  else if doc._id ∈ s.map (fun d => d._id) then Except.error StoreError.duplicateKey
  else Except.ok (s ++ [doc])

/-- The `SensorData.find(filter)`: the documents that satisfy the filter. -/
def find (filter : Reading → Bool) (s : Store) : List Reading := s.filter filter

/-- Ascending timestamp order. -/
def tsLe (a b : Reading) : Prop := a.timestamp ≤ b.timestamp

/-- Descending timestamp order. -/
def tsGe (a b : Reading) : Prop := b.timestamp ≤ a.timestamp

instance tsLe_decidable : DecidableRel tsLe :=
  fun a b => inferInstanceAs (Decidable (a.timestamp ≤ b.timestamp))

instance tsGe_decidable : DecidableRel tsGe :=
  fun a b => inferInstanceAs (Decidable (b.timestamp ≤ a.timestamp))

/-- The `.sort({ timestamp: 1 })` (ascending) and `.sort({ timestamp: -1 })` (descending). -/
def sort (timestamp : Int) (docs : List Reading) : List Reading :=
  if timestamp < 0 then docs.insertionSort tsGe else docs.insertionSort tsLe

/-- The `.limit(n)`. -/
def limit (n : Nat) (docs : List Reading) : List Reading := docs.take n

/-- The `SensorData.deleteMany({ _id: { $in: ids } })`: the collection without the documents
whose `_id` is listed, and `deletedCount`. -/
def deleteMany (ids : List Nat) (s : Store) : Store × Nat :=
  (s.filter (fun d => decide (d._id ∉ ids)), (s.filter (fun d => decide (d._id ∈ ids))).length)

/-! ## Responses -/

/-- The `{ status, message }` bodies. -/
structure StatusBody where
  status : String
  message : String
deriving DecidableEq, Repr

/-- A value of a plain JavaScript object built from a document. -/
inductive Value where
  | objectId (n : Nat)
  | number (x : Int)
  | date (ms : Int)
deriving DecidableEq, Repr

/-- A plain JavaScript object: its own keys, in order, with their values. -/
abbrev Obj := List (String × Value)

/-- A worksheet: the header row and one record per data row. -/
structure Sheet where
  header : List String
  rows : List Obj
deriving DecidableEq, Repr

/-- What a route answers. -/
inductive Response where
  | send (code : Nat) (body : StatusBody)
  | json (code : Nat) (data : List Reading)
  | file (code : Nat) (filename : String) (workbook : Sheet)
deriving DecidableEq, Repr

/-! ## `POST /sensorData` (lines 43-53) and `GET /sensorData` (lines 56-65) -/

/-- The `new SensorData(req.body)`: the body's paths, `timestamp` defaulting to `Date.now()`,
the generated `_id`, and `__v` 0. -/
def newSensorData (body : ReqBody) (now : Int) (oid : Nat) : Reading :=
  { _id := oid, ph := body.ph, pressure1 := body.pressure1, pressure2 := body.pressure2,
    pressure3 := body.pressure3, temperature := body.temperature,
    timestamp := body.timestamp.getD now, __v := 0 }

/-- The route `app.post('/sensorData')`. -/
def postSensorData (s : Store) (now : Int) (body : ReqBody) (oid : Nat) (fails : Bool) :
    Store × Response :=
  let sensorData := newSensorData body now oid
  match save s sensorData fails with
  | Except.ok s1 => (s1, Response.send 200 ⟨"success", "Data saved to MongoDB"⟩)
  | Except.error _ => (s, Response.send 500 ⟨"error", "Failed to save data"⟩)

/-- The route `app.get('/sensorData')`. -/
def getSensorData (s : Store) (fails : Bool) : Response :=
  match await fails (limit 100 (sort (-1) (find (fun _ => true) s))) with
  | Except.ok data => Response.json 200 data
  | Except.error _ => Response.send 500 ⟨"error", "Failed to fetch data"⟩

/-! ## `GET /export-and-delete` (lines 71-121) -/

/-- A numeric path of a document as the key it contributes to the plain object. -/
def optField (key : String) : Option Int → Obj
  | some x => [(key, Value.number x)]
  | none => []

/-- The plain object `.lean()` yields for a document: `_id`, the paths that are set,
`timestamp`, `__v`. -/
def Reading.toObject (d : Reading) : Obj :=
  [("_id", Value.objectId d._id)] ++ optField "ph" d.ph ++ optField "pressure1" d.pressure1
    ++ optField "pressure2" d.pressure2 ++ optField "pressure3" d.pressure3
    ++ optField "temperature" d.temperature
    ++ [("timestamp", Value.date d.timestamp), ("__v", Value.number (Int.ofNat d.__v))]

/-- The arrow function of line 85, on one object: every own key except `_id` and `__v`. -/
def rest (o : Obj) : Obj := o.filter (fun kv => kv.1 != "_id" && kv.1 != "__v")

/-- The `cleanData` of line 85. -/
def cleanData (dataToExport : List Reading) : List Obj :=
  dataToExport.map (fun d => rest d.toObject)

/-- The header of `XLSX.utils.json_to_sheet`: the keys of the records, each once, in order
of first appearance. -/
def headerOf (data : List Obj) : List String :=
  data.foldl (fun hdr o => o.foldl (fun h kv => if kv.1 ∈ h then h else h ++ [kv.1]) hdr) []

/-- The `XLSX.utils.json_to_sheet(cleanData)`: header row and one row per record. -/
def json_to_sheet (data : List Obj) : Sheet := ⟨headerOf data, data⟩

/-- The `XLSX.write(workbook, ...)`: throws when the environment says so. -/
def XLSX_write (throws : Bool) (worksheet : Sheet) : Except Unit Sheet :=
  if throws then Except.error () else Except.ok worksheet

/-! ### `toISOString` and the filename (lines 92-94) -/

/-- The decimal digit `d % 10` as a character. -/
def digitChar (d : Nat) : Char := Char.ofNat (48 + d % 10)

/-- The last `width` decimal digits of `n`, zero padded. -/
def pad (width n : Nat) : List Char :=
  (List.range width).reverse.map (fun i => digitChar (n / 10 ^ i))

/-- The civil year, month (1-12) and day of month (1-31) of a day number counted from
1970-01-01, in the proleptic Gregorian calendar. -/
def civilFromDays (day : Int) : Int × Nat × Nat :=
  let z := day + 719468
  let era := z / 146097
  let doe := (z % 146097).toNat
  let yoe := (doe - doe / 1460 + doe / 36524 - doe / 146096) / 365
  let doy := doe - (365 * yoe + yoe / 4 - yoe / 100)
  let mp := (5 * doy + 2) / 153
  let d := doy - (153 * mp + 2) / 5 + 1
  let m := if mp < 10 then mp + 3 else mp - 9
  let y := Int.ofNat yoe + era * 400
  (if m ≤ 2 then y + 1 else y, m, d)

/-- The year of an ISO string: four digits for 0-9999, else a sign and six digits. -/
def isoYear (y : Int) : List Char :=
  if 0 ≤ y ∧ y ≤ 9999 then pad 4 y.toNat
  else if y < 0 then '-' :: pad 6 y.natAbs else '+' :: pad 6 y.natAbs

/-- The part of an ISO string that is fixed by the second: `YYYY-MM-DDTHH:mm:ss`. -/
def isoSeconds (secs : Int) : List Char :=
  let ymd := civilFromDays (secs / 86400)
  isoYear ymd.1 ++ '-' :: pad 2 ymd.2.1 ++ '-' :: pad 2 ymd.2.2
    ++ 'T' :: pad 2 ((secs / 3600) % 24).toNat ++ ':' :: pad 2 ((secs / 60) % 60).toNat
    ++ ':' :: pad 2 (secs % 60).toNat

/-- The `Date.prototype.toISOString` of the time value `t`: `YYYY-MM-DDTHH:mm:ss.sssZ`. -/
def toISOString (t : Int) : List Char :=
  isoSeconds (t / 1000) ++ '.' :: pad 3 (t % 1000).toNat ++ ['Z']

/-- The `.replace(/[:.]/g, '-')`. -/
def replaceColonPeriod (s : List Char) : List Char :=
  s.map (fun c => if c = ':' ∨ c = '.' then '-' else c)

/-- The `.split(sep)` for a one-character separator. -/
def split (sep : Char) : List Char → List (List Char)
  | [] => [[]]
  | c :: cs =>
    if c = sep then [] :: split sep cs
    else
      match split sep cs with
      | [] => [[c]]
      | piece :: pieces => (c :: piece) :: pieces

/-- The `.join(sep)` for a one-character separator. -/
def join (sep : Char) : List (List Char) → List Char
  | [] => []
  | [piece] => piece
  | piece :: pieces => piece ++ sep :: join sep pieces

/-- The `dateStr` of line 93. -/
def dateStr (now : Int) : List Char :=
  join '_' (split 'T' (replaceColonPeriod (toISOString now)))

/-- What `dateStr` makes of one character of the ISO string: `:` and `.` become `-`,
and `T` becomes `_`. -/
def safeChar (c : Char) : Char :=
  if (if c = ':' ∨ c = '.' then '-' else c) = 'T' then '_'
  else (if c = ':' ∨ c = '.' then '-' else c)

/-- The `filename` of line 94. -/
def filename (now : Int) : String :=
  "BioGas_Data_Export_" ++ String.mk (dateStr now) ++ ".xlsx"

/-! ### The workflow -/

/-- The event the response emits after `res.end(buffer)`. -/
inductive Delivery where
  | finish
  | error
deriving DecidableEq, Repr

/-- A `POST /sensorData` request with what the environment decides for it. -/
structure PostRequest where
  now : Int
  body : ReqBody
  oid : Nat
  fails : Bool
deriving DecidableEq, Repr

/-- The store after serving the given `POST /sensorData` requests in order. -/
def servePosts (s : Store) : List PostRequest → Store
  | [] => s
  | p :: ps => servePosts (postSensorData s p.now p.body p.oid p.fails).1 ps

/-- What the environment decides for one `GET /export-and-delete`: whether the query
rejects, whether `XLSX.write` throws, the clock when the filename is built, the
`POST /sensorData` requests served between the query and the event of the response,
that event, whether `deleteMany` rejects, and the identities a rejected `deleteMany`
had removed all the same (a delete of many documents is not atomic). -/
structure ExportEnv where
  queryFails : Bool
  writeThrows : Bool
  sentAt : Int
  appended : List PostRequest
  delivery : Delivery
  deleteFails : Bool
  removedOnReject : List Nat
deriving DecidableEq, Repr

/-- What became of the deletion of lines 103-108: never issued; resolved, with the
identities it was given and `deletedCount`; or rejected inside the `finish` listener,
which is an `async` function called by the event emitter after the route has returned:
the `try` of lines 72-120 does not cover it, the rejection is unhandled and the process
ends. -/
inductive Deletion where
  | notIssued
  | deleted (ids : List Nat) (deletedCount : Nat)
  | rejected (ids : List Nat)
deriving DecidableEq, Repr

/-- One invocation of the workflow: the store afterwards, the response, the result of
the query (empty when it rejected) and the deletion. -/
structure ExportResult where
  store : Store
  response : Response
  dataToExport : List Reading
  deletion : Deletion
deriving DecidableEq, Repr

/-- The body of the `catch` of lines 114-120. -/
def exportFailed : Response :=
  Response.send 500 ⟨"error", "Failed to complete data export and deletion."⟩

/-- The body of the empty-result answer of lines 78-83. -/
def nothingToExport : Response :=
  Response.send 200 ⟨"info", "No new data found in the last 10 minutes to export."⟩

/-- The listener of `res.on('finish')`, lines 103-108, run on the store `s`.  When
`deleteMany` rejects, the store has lost those of the listed identities that are in
`removed`, and nothing catches the rejection. -/
def onFinish (s : Store) (dataToExport : List Reading) (deleteFails : Bool)
    (removed : List Nat) : Store × Deletion :=
  let ids := dataToExport.map (fun d => d._id)
  match await deleteFails (deleteMany ids s) with
  | Except.ok deleteResult => (deleteResult.1, Deletion.deleted ids deleteResult.2)
  | Except.error _ =>
    ((deleteMany (ids.filter (fun i => decide (i ∈ removed))) s).1, Deletion.rejected ids)

/-- The query of lines 73-76 at clock `now`: the documents whose timestamp is at least
`tenMinutesAgo`, in ascending timestamp order. -/
def findLastTenMinutes (s : Store) (now : Int) : List Reading :=
  let tenMinutesAgo := now - 10 * 60 * 1000
  sort 1 (find (fun d => decide (d.timestamp ≥ tenMinutesAgo)) s)

/-- The route `app.get('/export-and-delete')`, called at clock `now`. -/
def exportAndDelete (s : Store) (now : Int) (env : ExportEnv) : ExportResult :=
  match await env.queryFails (findLastTenMinutes s now) with
  | Except.error _ => ⟨s, exportFailed, [], Deletion.notIssued⟩
  | Except.ok dataToExport =>
    if dataToExport.length = 0 then ⟨s, nothingToExport, dataToExport, Deletion.notIssued⟩
    else
      match XLSX_write env.writeThrows (json_to_sheet (cleanData dataToExport)) with
      | Except.error _ => ⟨s, exportFailed, dataToExport, Deletion.notIssued⟩
      | Except.ok buffer =>
        let response := Response.file 200 (filename env.sentAt) buffer
        let s1 := servePosts s env.appended
        match env.delivery with
        | Delivery.finish =>
          let done := onFinish s1 dataToExport env.deleteFails env.removedOnReject
          ⟨done.1, response, dataToExport, done.2⟩
        | Delivery.error => ⟨s1, response, dataToExport, Deletion.notIssued⟩

/-! ## Sequences of invocations -/

/-- One invocation of a route, with what the environment decides for it. -/
inductive Request where
  | ingest (body : ReqBody) (oid : Nat) (fails : Bool)
  | recent (fails : Bool)
  | exportPurge (env : ExportEnv)
deriving DecidableEq, Repr

/-- What one invocation did besides changing the store. -/
structure Served where
  response : Response
  dataToExport : List Reading
  deletion : Deletion
deriving DecidableEq, Repr

/-- One invocation at clock `now`. -/
def step (s : Store) (now : Int) : Request → Store × Served
  | Request.ingest body oid fails =>
    let r := postSensorData s now body oid fails
    (r.1, ⟨r.2, [], Deletion.notIssued⟩)
  | Request.recent fails => (s, ⟨getSensorData s fails, [], Deletion.notIssued⟩)
  | Request.exportPurge env =>
    let r := exportAndDelete s now env
    (r.store, ⟨r.response, r.dataToExport, r.deletion⟩)

/-- An unhandled rejection has ended the process. -/
def processEnded : Deletion → Bool
  | Deletion.rejected _ => true
  | _ => false

/-- The invocations of `trace`, each with its clock, one after another, for as long as
the process lives: after an unhandled rejection nothing more is served. -/
def run (s : Store) : List (Int × Request) → Store × List Served
  | [] => (s, [])
  | (now, q) :: more =>
    let r := step s now q
    if processEnded r.2.deletion then (r.1, [r.2])
    else
      let rs := run r.1 more
      (rs.1, r.2 :: rs.2)

/-! ## Predicates used by the statements -/

/-- A stored record carries the fields of the body `P`, with the clock `now` as its
timestamp when `P` has none. -/
def matchesBody (P : ReqBody) (now : Int) (r : Reading) : Prop :=
  r.ph = P.ph ∧ r.pressure1 = P.pressure1 ∧ r.pressure2 = P.pressure2 ∧
    r.pressure3 = P.pressure3 ∧ r.temperature = P.temperature ∧
    r.timestamp = P.timestamp.getD now

instance matchesBody_decidable (P : ReqBody) (now : Int) (r : Reading) :
    Decidable (matchesBody P now r) :=
  inferInstanceAs (Decidable (r.ph = P.ph ∧ r.pressure1 = P.pressure1 ∧
    r.pressure2 = P.pressure2 ∧ r.pressure3 = P.pressure3 ∧ r.temperature = P.temperature ∧
    r.timestamp = P.timestamp.getD now))

/-! ## Concrete inputs used by the checks below -/

/-- A reading with only an identity and a timestamp. -/
def bare (oid : Nat) (timestamp : Int) : Reading :=
  ⟨oid, none, none, none, none, none, timestamp, 0⟩

/-- The reading with identity `i` and timestamp `1000099 - i`. -/
def bareAt (i : Nat) : Reading := bare i (1000099 - Int.ofNat i)

/-- A store of 100 readings with identities 0-99 and timestamps 1000099 down to 1000000. -/
def hundredLater : Store := (List.range 100).map (fun i => bareAt i)

/-- A reading with every schema path set. -/
def fullReading : Reading := ⟨1, some 7, some 101, some 102, some 103, some 35, 1700000, 0⟩

/-- An environment in which nothing fails and delivery finishes. -/
def happy : ExportEnv := ⟨false, false, 0, [], Delivery.finish, false, []⟩

/-! ## Lemmas on the store operations -/

theorem tsLe_total : IsTotal Reading tsLe := ⟨fun a b => Int.le_total a.timestamp b.timestamp⟩

theorem tsLe_trans : IsTrans Reading tsLe := ⟨fun _ _ _ h1 h2 => Int.le_trans h1 h2⟩

theorem tsGe_total : IsTotal Reading tsGe := ⟨fun a b => Int.le_total b.timestamp a.timestamp⟩

theorem tsGe_trans : IsTrans Reading tsGe := ⟨fun _ _ _ h1 h2 => Int.le_trans h2 h1⟩

theorem sort_asc (docs : List Reading) : sort 1 docs = docs.insertionSort tsLe := by
  simp [sort]

theorem sort_desc (docs : List Reading) : sort (-1) docs = docs.insertionSort tsGe := by
  simp [sort]

theorem sort_asc_perm (docs : List Reading) : (sort 1 docs).Perm docs := by
  rw [sort_asc]; exact List.perm_insertionSort tsLe docs

theorem sort_asc_sorted (docs : List Reading) : (sort 1 docs).Sorted tsLe := by
  rw [sort_asc]
  haveI := tsLe_total
  haveI := tsLe_trans
  exact List.sorted_insertionSort tsLe docs

theorem mem_sort_asc {docs : List Reading} {r : Reading} : r ∈ sort 1 docs ↔ r ∈ docs :=
  (sort_asc_perm docs).mem_iff

/-- Two documents of a collection with the same `_id` are the same document. -/
theorem eq_of_id_eq {s : Store} (hu : UniqueIds s) {a b : Reading} (ha : a ∈ s) (hb : b ∈ s)
    (h : a._id = b._id) : a = b :=
  List.inj_on_of_nodup_map hu ha hb h

theorem post_store (s : Store) (now : Int) (body : ReqBody) (oid : Nat) (fails : Bool) :
    (postSensorData s now body oid fails).1 = s ∨
    ((postSensorData s now body oid fails).1 = s ++ [newSensorData body now oid] ∧
      oid ∉ s.map (fun d => d._id)) := by
  unfold postSensorData save
  by_cases hf : fails = true
  · simp [hf]
  · by_cases hd : (newSensorData body now oid)._id ∈ s.map (fun d => d._id)
    · left; simp only [hf, hd]; simp
    · right
      have hd2 : oid ∉ s.map (fun d => d._id) := hd
      simp only [hf, hd]
      exact ⟨by simp, hd2⟩

theorem post_mem (s : Store) (now : Int) (body : ReqBody) (oid : Nat) (fails : Bool)
    {r : Reading} (hr : r ∈ s) : r ∈ (postSensorData s now body oid fails).1 := by
  rcases post_store s now body oid fails with h | ⟨h, _⟩ <;> rw [h]
  · exact hr
  · exact List.mem_append_left _ hr

theorem post_unique (s : Store) (now : Int) (body : ReqBody) (oid : Nat) (fails : Bool)
    (hu : UniqueIds s) : UniqueIds (postSensorData s now body oid fails).1 := by
  rcases post_store s now body oid fails with h | ⟨h, hn⟩ <;> rw [h]
  · exact hu
  · unfold UniqueIds at *
    rw [List.map_append, List.nodup_append]
    refine ⟨hu, by simp, ?_⟩
    intro a ha hb
    simp [newSensorData] at hb
    subst hb
    exact hn ha

theorem post_new_id (s : Store) (now : Int) (body : ReqBody) (oid : Nat) (fails : Bool)
    {d : Reading} (hd : d ∈ (postSensorData s now body oid fails).1) (hn : d ∉ s) :
    d._id ∉ s.map (fun d => d._id) := by
  rcases post_store s now body oid fails with h | ⟨h, hid⟩
  · rw [h] at hd; exact absurd hd hn
  · rw [h] at hd
    rcases List.mem_append.mp hd with h1 | h1
    · exact absurd h1 hn
    · simp at h1
      subst h1
      simpa [newSensorData] using hid

theorem servePosts_mem (ps : List PostRequest) (s : Store) {r : Reading} (hr : r ∈ s) :
    r ∈ servePosts s ps := by
  induction ps generalizing s with
  | nil => exact hr
  | cons p ps ih => exact ih _ (post_mem s p.now p.body p.oid p.fails hr)

theorem servePosts_unique (ps : List PostRequest) (s : Store) (hu : UniqueIds s) :
    UniqueIds (servePosts s ps) := by
  induction ps generalizing s with
  | nil => exact hu
  | cons p ps ih => exact ih _ (post_unique s p.now p.body p.oid p.fails hu)

theorem servePosts_new_id (ps : List PostRequest) (s : Store) {d : Reading}
    (hd : d ∈ servePosts s ps) (hn : d ∉ s) : d._id ∉ s.map (fun d => d._id) := by
  induction ps generalizing s with
  | nil => exact absurd hd hn
  | cons p ps ih =>
    by_cases h1 : d ∈ (postSensorData s p.now p.body p.oid p.fails).1
    · exact post_new_id s p.now p.body p.oid p.fails h1 hn
    · have h2 := ih _ hd h1
      intro hc
      apply h2
      obtain ⟨a, ha, hae⟩ := List.mem_map.mp hc
      exact List.mem_map.mpr ⟨a, post_mem s p.now p.body p.oid p.fails ha, hae⟩

theorem mem_findLastTenMinutes {s : Store} {now : Int} {r : Reading} :
    r ∈ findLastTenMinutes s now ↔ r ∈ s ∧ now - 600000 ≤ r.timestamp := by
  unfold findLastTenMinutes
  rw [mem_sort_asc]
  simp only [find, List.mem_filter, decide_eq_true_eq]
  constructor <;> (rintro ⟨h1, h2⟩; exact ⟨h1, by omega⟩)

/-- The route `app.get('/export-and-delete')`, branch by branch. -/
theorem export_unfold (s : Store) (now : Int) (env : ExportEnv) :
    exportAndDelete s now env =
      if env.queryFails = true then ⟨s, exportFailed, [], Deletion.notIssued⟩
      else if findLastTenMinutes s now = [] then ⟨s, nothingToExport, [], Deletion.notIssued⟩
      else if env.writeThrows = true then
        ⟨s, exportFailed, findLastTenMinutes s now, Deletion.notIssued⟩
      else if env.delivery = Delivery.finish then
        ⟨(onFinish (servePosts s env.appended) (findLastTenMinutes s now) env.deleteFails
            env.removedOnReject).1,
          Response.file 200 (filename env.sentAt)
            (json_to_sheet (cleanData (findLastTenMinutes s now))),
          findLastTenMinutes s now,
          (onFinish (servePosts s env.appended) (findLastTenMinutes s now) env.deleteFails
            env.removedOnReject).2⟩
      else
        ⟨servePosts s env.appended,
          Response.file 200 (filename env.sentAt)
            (json_to_sheet (cleanData (findLastTenMinutes s now))),
          findLastTenMinutes s now, Deletion.notIssued⟩ := by
  unfold exportAndDelete await XLSX_write
  cases env.queryFails <;> cases env.writeThrows <;> cases env.delivery <;>
    simp only [Bool.false_eq_true, if_false, if_true, reduceCtorEq, List.length_eq_zero] <;>
    first
      | rfl
      | (split <;> simp_all)

theorem dataToExport_cases (s : Store) (now : Int) (env : ExportEnv) :
    (exportAndDelete s now env).dataToExport = [] ∨
    (exportAndDelete s now env).dataToExport = findLastTenMinutes s now := by
  rw [export_unfold]
  split_ifs <;> simp_all

theorem dataToExport_subset (s : Store) (now : Int) (env : ExportEnv) {r : Reading}
    (hr : r ∈ (exportAndDelete s now env).dataToExport) :
    r ∈ s ∧ now - 600000 ≤ r.timestamp := by
  rcases dataToExport_cases s now env with h | h
  · rw [h] at hr; simp at hr
  · rw [h] at hr; exact mem_findLastTenMinutes.mp hr

/-- The listener removes only documents whose identity the query returned. -/
theorem onFinish_store (s : Store) (docs : List Reading) (deleteFails : Bool)
    (removed : List Nat) :
    ∃ gone : List Nat, (∀ i ∈ gone, i ∈ docs.map (fun d => d._id)) ∧
      (onFinish s docs deleteFails removed).1 = s.filter (fun d => decide (d._id ∉ gone)) := by
  unfold onFinish await deleteMany
  cases deleteFails
  · exact ⟨docs.map (fun d => d._id), fun i hi => hi, by simp⟩
  · exact ⟨(docs.map (fun d => d._id)).filter (fun i => decide (i ∈ removed)),
      fun i hi => (List.mem_filter.mp hi).1, by simp⟩

/-- C1. When the query of `GET /export-and-delete` returns a non-empty result and the
file response emits `error` instead of `finish`, no deletion is issued: the store
afterwards is the store as the requests served meanwhile left it, and it still holds
every reading the query returned and every other reading it held before. -/
theorem delivery_error_issues_no_deletion (s : Store) (now : Int) (env : ExportEnv)
    (hq : env.queryFails = false) (hne : findLastTenMinutes s now ≠ [])
    (hw : env.writeThrows = false) (herr : env.delivery = Delivery.error) :
    (exportAndDelete s now env).response
      = Response.file 200 (filename env.sentAt)
          (json_to_sheet (cleanData (findLastTenMinutes s now))) ∧
    (exportAndDelete s now env).dataToExport = findLastTenMinutes s now ∧
    (exportAndDelete s now env).deletion = Deletion.notIssued ∧
    (exportAndDelete s now env).store = servePosts s env.appended ∧
    (∀ r ∈ findLastTenMinutes s now, r ∈ (exportAndDelete s now env).store) ∧
    (∀ r ∈ s, r ∈ (exportAndDelete s now env).store) := by
  have hx : exportAndDelete s now env
      = ⟨servePosts s env.appended,
          Response.file 200 (filename env.sentAt)
            (json_to_sheet (cleanData (findLastTenMinutes s now))),
          findLastTenMinutes s now, Deletion.notIssued⟩ := by
    rw [export_unfold]
    simp [hq, hne, hw, herr]
  rw [hx]
  refine ⟨rfl, rfl, rfl, rfl, ?_, ?_⟩
  · intro r hr
    exact servePosts_mem env.appended s (mem_findLastTenMinutes.mp hr).1
  · intro r hr
    exact servePosts_mem env.appended s hr

/-- C1, at a store of three readings whose delivery fails after a reading was appended. -/
theorem delivery_error_issues_no_deletion_witness :
    (exportAndDelete [bare 1 100, bare 2 600100, bare 3 900000] 1200000
        ⟨false, false, 1200001, [⟨1200002, ⟨some 7, none, none, none, none, none⟩, 4, false⟩],
          Delivery.error, false, []⟩).deletion = Deletion.notIssued ∧
    (exportAndDelete [bare 1 100, bare 2 600100, bare 3 900000] 1200000
        ⟨false, false, 1200001, [⟨1200002, ⟨some 7, none, none, none, none, none⟩, 4, false⟩],
          Delivery.error, false, []⟩).store
      = [bare 1 100, bare 2 600100, bare 3 900000,
          ⟨4, some 7, none, none, none, none, 1200002, 0⟩] :=
  ⟨(delivery_error_issues_no_deletion [bare 1 100, bare 2 600100, bare 3 900000] 1200000
      ⟨false, false, 1200001, [⟨1200002, ⟨some 7, none, none, none, none, none⟩, 4, false⟩],
        Delivery.error, false, []⟩ rfl (by decide) rfl rfl).2.2.1, by decide⟩

theorem findLastTenMinutes_perm (s : Store) (now : Int) :
    (findLastTenMinutes s now).Perm (s.filter (fun d => decide (now - 600000 ≤ d.timestamp))) := by
  unfold findLastTenMinutes
  have h : (fun d : Reading => decide (d.timestamp ≥ now - 10 * 60 * 1000))
      = (fun d : Reading => decide (now - 600000 ≤ d.timestamp)) := by
    funext d
    norm_num
  simp only [find, h]
  exact sort_asc_perm _

theorem findLastTenMinutes_sorted (s : Store) (now : Int) :
    (findLastTenMinutes s now).Sorted tsLe := by
  unfold findLastTenMinutes
  exact sort_asc_sorted _

/-- Deleting the identities of the window from a collection with unique identities
leaves exactly the documents older than the window. -/
theorem delete_window (s : Store) (now : Int) (hu : UniqueIds s) :
    s.filter (fun d => decide (d._id ∉ (findLastTenMinutes s now).map (fun d => d._id)))
      = s.filter (fun d => decide (d.timestamp < now - 600000)) := by
  apply List.filter_congr
  intro d hd
  rw [decide_eq_decide]
  constructor
  · intro hn
    by_contra hc
    apply hn
    exact List.mem_map.mpr ⟨d, mem_findLastTenMinutes.mpr ⟨hd, by omega⟩, rfl⟩
  · intro hlt hc
    obtain ⟨e, he, hid⟩ := List.mem_map.mp hc
    have he2 := mem_findLastTenMinutes.mp he
    have : e = d := eq_of_id_eq hu he2.1 hd hid
    subst this
    omega

/-- C2. On a store with unique identities that holds N >= 1 readings of the last ten
minutes (timestamp >= now - 10 min, the bound included) and M older ones, with nothing
appended meanwhile, no failing store call or serialisation, and delivery finishing:
the workflow answers the file whose rows are the N readings, one row each, in ascending
timestamp order, and the store afterwards is exactly the M older readings, unchanged. -/
theorem export_purges_exactly_the_window (s : Store) (now : Int) (env : ExportEnv)
    (hu : UniqueIds s)
    (hN : 1 ≤ (s.filter (fun d => decide (now - 600000 ≤ d.timestamp))).length)
    (hq : env.queryFails = false) (hw : env.writeThrows = false)
    (happ : env.appended = []) (hfin : env.delivery = Delivery.finish)
    (hdel : env.deleteFails = false) :
    ∃ wb : Sheet,
      (exportAndDelete s now env).response = Response.file 200 (filename env.sentAt) wb ∧
      wb.rows = (exportAndDelete s now env).dataToExport.map (fun d => rest d.toObject) ∧
      wb.rows.length = (s.filter (fun d => decide (now - 600000 ≤ d.timestamp))).length ∧
      (exportAndDelete s now env).dataToExport.Perm
        (s.filter (fun d => decide (now - 600000 ≤ d.timestamp))) ∧
      (exportAndDelete s now env).dataToExport.Sorted tsLe ∧
      (exportAndDelete s now env).store
        = s.filter (fun d => decide (d.timestamp < now - 600000)) := by
  have hperm := findLastTenMinutes_perm s now
  have hne : findLastTenMinutes s now ≠ [] := by
    intro h
    rw [h] at hperm
    have h2 := hperm.length_eq
    simp only [List.length_nil] at h2
    omega
  have hx : exportAndDelete s now env
      = ⟨s.filter (fun d => decide (d.timestamp < now - 600000)),
          Response.file 200 (filename env.sentAt)
            (json_to_sheet (cleanData (findLastTenMinutes s now))),
          findLastTenMinutes s now,
          Deletion.deleted ((findLastTenMinutes s now).map (fun d => d._id))
            (s.filter (fun d => decide
              (d._id ∈ (findLastTenMinutes s now).map (fun d => d._id)))).length⟩ := by
    rw [export_unfold]
    simp only [hq, hne, hw, hfin, happ, hdel, servePosts, onFinish, await, deleteMany,
      Bool.false_eq_true, if_false, if_true]
    rw [delete_window s now hu]
  rw [hx]
  refine ⟨json_to_sheet (cleanData (findLastTenMinutes s now)), rfl, rfl, ?_, hperm,
    findLastTenMinutes_sorted s now, rfl⟩
  simp only [json_to_sheet, cleanData, List.length_map]
  exact hperm.length_eq

/-- C2, at readings C (now - 1 min), A (now - 15 min), B (now - 5 min) stored in that
order, with now = 2000000: [B, C] is exported and the store is left equal to [A]. -/
theorem export_purges_exactly_the_window_witness :
    (∃ wb : Sheet,
      (exportAndDelete [bare 3 1940000, bare 1 1100000, bare 2 1700000] 2000000 happy).response
        = Response.file 200 (filename happy.sentAt) wb ∧
      wb.rows = [[("timestamp", Value.date 1700000)], [("timestamp", Value.date 1940000)]]) ∧
    (exportAndDelete [bare 3 1940000, bare 1 1100000, bare 2 1700000] 2000000 happy).dataToExport
      = [bare 2 1700000, bare 3 1940000] ∧
    (exportAndDelete [bare 3 1940000, bare 1 1100000, bare 2 1700000] 2000000 happy).store
      = [bare 1 1100000] := by
  obtain ⟨wb, h1, h2, -, -, -, h6⟩ :=
    export_purges_exactly_the_window [bare 3 1940000, bare 1 1100000, bare 2 1700000] 2000000
      happy (by decide) (by decide) rfl rfl rfl rfl rfl
  refine ⟨⟨wb, h1, ?_⟩, by decide, ?_⟩
  · rw [h2]; decide
  · rw [h6]; decide

/-- The only branch of the route in which `deleteMany` resolves. -/
theorem deleted_inv (s : Store) (now : Int) (env : ExportEnv) (ids : List Nat) (n : Nat)
    (hdel : (exportAndDelete s now env).deletion = Deletion.deleted ids n) :
    env.delivery = Delivery.finish ∧
    ids = (findLastTenMinutes s now).map (fun d => d._id) ∧
    (exportAndDelete s now env).dataToExport = findLastTenMinutes s now ∧
    (exportAndDelete s now env).store
      = (servePosts s env.appended).filter (fun d => decide (d._id ∉ ids)) ∧
    (exportAndDelete s now env).response
      = Response.file 200 (filename env.sentAt)
          (json_to_sheet (cleanData (findLastTenMinutes s now))) := by
  rw [export_unfold] at hdel ⊢
  by_cases h1 : env.queryFails = true
  · simp [h1] at hdel
  by_cases h2 : findLastTenMinutes s now = []
  · simp [h1, h2] at hdel
  by_cases h3 : env.writeThrows = true
  · simp [h1, h2, h3] at hdel
  by_cases h4 : env.delivery = Delivery.finish
  · simp only [h1, h2, h3, h4, if_false, if_true] at hdel ⊢
    simp only [onFinish, await, deleteMany] at hdel ⊢
    cases hdf : env.deleteFails
    · simp only [hdf, Bool.false_eq_true, if_false] at hdel ⊢
      simp only [Deletion.deleted.injEq] at hdel
      obtain ⟨hids, -⟩ := hdel
      subst hids
      simp
    · simp [hdf] at hdel
  · simp [h1, h2, h3, h4] at hdel

/-- C3. When an invocation reaches the deletion, the identities it deletes are exactly
those of the readings its query returned: the documents removed from the store are the
readings of the query and no others, and every reading appended between the query and
the deletion is still in the store afterwards, whatever its timestamp. -/
theorem deletion_targets_the_snapshot (s : Store) (now : Int) (env : ExportEnv)
    (ids : List Nat) (n : Nat) (hu : UniqueIds s)
    (hdel : (exportAndDelete s now env).deletion = Deletion.deleted ids n) :
    ids = (exportAndDelete s now env).dataToExport.map (fun d => d._id) ∧
    (exportAndDelete s now env).dataToExport = findLastTenMinutes s now ∧
    (exportAndDelete s now env).store
      = (servePosts s env.appended).filter (fun d => decide (d._id ∉ ids)) ∧
    (∀ d ∈ servePosts s env.appended,
      d ∉ (exportAndDelete s now env).store ↔ d ∈ (exportAndDelete s now env).dataToExport) ∧
    (∀ d ∈ servePosts s env.appended, d ∉ s → d ∈ (exportAndDelete s now env).store) := by
  obtain ⟨-, hids, hdata, hstore, -⟩ := deleted_inv s now env ids n hdel
  rw [hdata, hstore]
  refine ⟨hids, rfl, rfl, ?_, ?_⟩
  · intro d hd
    have hu1 := servePosts_unique env.appended s hu
    simp only [List.mem_filter, decide_eq_true_eq, hd, true_and, not_not]
    constructor
    · intro hin
      rw [hids] at hin
      obtain ⟨e, he, hid⟩ := List.mem_map.mp hin
      have hes := servePosts_mem env.appended s (mem_findLastTenMinutes.mp he).1
      have : e = d := eq_of_id_eq hu1 hes hd hid
      subst this
      exact he
    · intro hin
      rw [hids]
      exact List.mem_map.mpr ⟨d, hin, rfl⟩
  · intro d hd hns
    have hfresh := servePosts_new_id env.appended s hd hns
    simp only [List.mem_filter, decide_eq_true_eq, hd, true_and]
    intro hin
    rw [hids] at hin
    obtain ⟨e, he, hid⟩ := List.mem_map.mp hin
    exact hfresh (List.mem_map.mpr ⟨e, (mem_findLastTenMinutes.mp he).1, hid⟩)

/-- C3, at a store of three readings where a reading of the window (identity 4,
timestamp 1200002 >= 600000) is appended between the query and the deletion: the
deletion is given the identities 2 and 3, and reading 4 stays. -/
theorem deletion_targets_the_snapshot_witness :
    (exportAndDelete [bare 1 100, bare 2 600100, bare 3 900000] 1200000
        ⟨false, false, 1200001, [⟨1200002, ⟨some 7, none, none, none, none, none⟩, 4, false⟩],
          Delivery.finish, false, []⟩).deletion = Deletion.deleted [2, 3] 2 ∧
    (exportAndDelete [bare 1 100, bare 2 600100, bare 3 900000] 1200000
        ⟨false, false, 1200001, [⟨1200002, ⟨some 7, none, none, none, none, none⟩, 4, false⟩],
          Delivery.finish, false, []⟩).store
      = [bare 1 100, ⟨4, some 7, none, none, none, none, 1200002, 0⟩] ∧
    [2, 3] = (exportAndDelete [bare 1 100, bare 2 600100, bare 3 900000] 1200000
        ⟨false, false, 1200001, [⟨1200002, ⟨some 7, none, none, none, none, none⟩, 4, false⟩],
          Delivery.finish, false, []⟩).dataToExport.map (fun d => d._id) :=
  ⟨by decide, by decide,
    (deletion_targets_the_snapshot [bare 1 100, bare 2 600100, bare 3 900000] 1200000
      ⟨false, false, 1200001, [⟨1200002, ⟨some 7, none, none, none, none, none⟩, 4, false⟩],
        Delivery.finish, false, []⟩ [2, 3] 2 (by decide) (by decide)).1⟩

/-- C4. Two invocations one after the other at clocks t1 <= t2, the first with its
delivery finished and its deletion done, nothing appended meanwhile: the second answers
status 200 with the body `{status: 'info', message}`, sends no file and issues no
deletion, so the store after it is the store after the first. -/
theorem second_export_finds_nothing (s : Store) (t1 t2 : Int) (env1 env2 : ExportEnv)
    (ids : List Nat) (n : Nat) (h12 : t1 ≤ t2)
    (hdel : (exportAndDelete s t1 env1).deletion = Deletion.deleted ids n)
    (happ : env1.appended = []) (hq2 : env2.queryFails = false) :
    (exportAndDelete (exportAndDelete s t1 env1).store t2 env2).response
      = Response.send 200 ⟨"info", "No new data found in the last 10 minutes to export."⟩ ∧
    (exportAndDelete (exportAndDelete s t1 env1).store t2 env2).dataToExport = [] ∧
    (exportAndDelete (exportAndDelete s t1 env1).store t2 env2).deletion = Deletion.notIssued ∧
    (exportAndDelete (exportAndDelete s t1 env1).store t2 env2).store
      = (exportAndDelete s t1 env1).store := by
  obtain ⟨-, hids, -, hstore, -⟩ := deleted_inv s t1 env1 ids n hdel
  have hempty : findLastTenMinutes (exportAndDelete s t1 env1).store t2 = [] := by
    rw [List.eq_nil_iff_forall_not_mem]
    intro r hr
    obtain ⟨hr1, hr2⟩ := mem_findLastTenMinutes.mp hr
    rw [hstore, happ] at hr1
    simp only [servePosts, List.mem_filter, decide_eq_true_eq] at hr1
    apply hr1.2
    rw [hids]
    exact List.mem_map.mpr ⟨r, mem_findLastTenMinutes.mpr ⟨hr1.1, by omega⟩, rfl⟩
  rw [export_unfold (exportAndDelete s t1 env1).store t2 env2]
  simp [hq2, hempty, nothingToExport]

/-- C4, at a store of three readings exported at clock 1200000 and again at 1200500. -/
theorem second_export_finds_nothing_witness :
    (exportAndDelete (exportAndDelete [bare 1 100, bare 2 600100, bare 3 900000]
        1200000 happy).store 1200500 happy).response
      = Response.send 200 ⟨"info", "No new data found in the last 10 minutes to export."⟩ ∧
    (exportAndDelete (exportAndDelete [bare 1 100, bare 2 600100, bare 3 900000]
        1200000 happy).store 1200500 happy).store = [bare 1 100] :=
  ⟨(second_export_finds_nothing [bare 1 100, bare 2 600100, bare 3 900000] 1200000 1200500
      happy happy [2, 3] 2 (by decide) (by decide) rfl rfl).1, by decide⟩

theorem sort_desc_perm (docs : List Reading) : (sort (-1) docs).Perm docs := by
  rw [sort_desc]; exact List.perm_insertionSort tsGe docs

theorem sort_desc_sorted (docs : List Reading) : (sort (-1) docs).Sorted tsGe := by
  rw [sort_desc]
  haveI := tsGe_total
  haveI := tsGe_trans
  exact List.sorted_insertionSort tsGe docs

theorem find_all (s : Store) : find (fun _ => true) s = s := by
  simp [find]

theorem getSensorData_ok (s : Store) :
    getSensorData s false = Response.json 200 ((sort (-1) s).take 100) := by
  simp [getSensorData, await, limit, find_all]

/-- C5. When its query succeeds, `GET /sensorData` answers min(100, n) readings of the
n stored ones, never more than 100, in non-increasing timestamp order, and they are the
most recent: the timestamp of each returned reading is at least that of every stored
reading that is not returned. -/
theorem recent_returns_the_hundred_latest (s : Store) :
    ∃ data : List Reading, getSensorData s false = Response.json 200 data ∧
      data.length = min 100 s.length ∧ data.length ≤ 100 ∧
      data.Sorted tsGe ∧
      ∃ others : List Reading, (data ++ others).Perm s ∧
        ∀ r ∈ data, ∀ q ∈ others, q.timestamp ≤ r.timestamp := by
  refine ⟨(sort (-1) s).take 100, getSensorData_ok s, ?_, ?_, ?_,
    (sort (-1) s).drop 100, ?_, ?_⟩
  · rw [List.length_take, (sort_desc_perm s).length_eq]
  · rw [List.length_take]; omega
  · exact (sort_desc_sorted s).sublist (List.take_sublist 100 _)
  · rw [List.take_append_drop]; exact sort_desc_perm s
  · have h := sort_desc_sorted s
    rw [← List.take_append_drop 100 (sort (-1) s)] at h
    intro r hr q hq
    exact (List.pairwise_append.mp h).2.2 r hr q hq

theorem post_ok_store (s : Store) (now : Int) (P : ReqBody) (oid : Nat) (fails : Bool)
    (hok : (postSensorData s now P oid fails).2
      = Response.send 200 ⟨"success", "Data saved to MongoDB"⟩) :
    (postSensorData s now P oid fails).1 = s ++ [newSensorData P now oid] := by
  unfold postSensorData save at hok ⊢
  by_cases hf : fails = true
  · simp [hf] at hok
  · by_cases hd : (newSensorData P now oid)._id ∈ s.map (fun d => d._id)
    · simp [hf, hd] at hok
    · simp only [hf, hd]; simp

/-- An element of a descending list that is not among its first `n` has at least `n`
other elements that are no older. -/
theorem countP_of_not_mem_take (l : List Reading) (hs : l.Sorted tsGe) (n : Nat) (x : Reading)
    (hx : x ∈ l) (hnot : x ∉ l.take n) :
    n + 1 ≤ l.countP (fun d => decide (x.timestamp ≤ d.timestamp)) := by
  have hsplit := List.take_append_drop n l
  have hdrop : x ∈ l.drop n := by
    rw [← hsplit] at hx
    rcases List.mem_append.mp hx with h | h
    · exact absurd h hnot
    · exact h
  have hlen : (l.take n).length = n := by
    rw [List.length_take]
    have : 0 < (l.drop n).length := List.length_pos_of_mem hdrop
    rw [List.length_drop] at this
    omega
  have hs2 := hs
  rw [← hsplit] at hs2
  have hcross := (List.pairwise_append.mp hs2).2.2
  have htake : (l.take n).countP (fun d => decide (x.timestamp ≤ d.timestamp)) = n := by
    rw [List.countP_eq_length.mpr, hlen]
    intro a ha
    exact decide_eq_true (hcross a ha x hdrop)
  have hpos : 0 < (l.drop n).countP (fun d => decide (x.timestamp ≤ d.timestamp)) :=
    List.countP_pos_iff.mpr ⟨x, hdrop, decide_eq_true (le_refl _)⟩
  calc n + 1 ≤ (l.take n).countP (fun d => decide (x.timestamp ≤ d.timestamp))
        + (l.drop n).countP (fun d => decide (x.timestamp ≤ d.timestamp)) := by omega
    _ = (l.take n ++ l.drop n).countP (fun d => decide (x.timestamp ≤ d.timestamp)) :=
        (List.countP_append _ _ _).symm
    _ = l.countP (fun d => decide (x.timestamp ≤ d.timestamp)) := by rw [hsplit]

/-- C6, as stated, fails: with 100 stored readings that are more recent than the
timestamp the client supplies, the `POST` succeeds and the `GET` that follows returns
those 100 readings, none of which matches the posted body. -/
theorem post_then_get_misses_old_reading :
    (postSensorData hundredLater 2000000 ⟨some 7, none, none, none, none, some 0⟩ 100 false).2
      = Response.send 200 ⟨"success", "Data saved to MongoDB"⟩ ∧
    getSensorData
      (postSensorData hundredLater 2000000 ⟨some 7, none, none, none, none, some 0⟩ 100 false).1
      false = Response.json 200 hundredLater ∧
    ∀ r ∈ hundredLater, ¬ matchesBody ⟨some 7, none, none, none, none, some 0⟩ 2000000 r := by
  refine ⟨by decide, by decide, by decide⟩

/-- C6, amended. After a successful `POST /sensorData` of `P`, a `GET /sensorData` whose
query succeeds returns a sequence that includes the new record, whose fields are those
of `P` and whose timestamp is the clock of the ingestion when `P` has none, provided
fewer than 100 of the readings stored before have a timestamp at or after the new one. -/
theorem post_then_get_includes_new (s : Store) (now : Int) (P : ReqBody) (oid : Nat)
    (fails : Bool)
    (hok : (postSensorData s now P oid fails).2
      = Response.send 200 ⟨"success", "Data saved to MongoDB"⟩)
    (hfew : s.countP (fun d => decide (P.timestamp.getD now ≤ d.timestamp)) < 100) :
    ∃ data : List Reading,
      getSensorData (postSensorData s now P oid fails).1 false = Response.json 200 data ∧
      ∃ r ∈ data, r._id = oid ∧ matchesBody P now r := by
  rw [post_ok_store s now P oid fails hok, getSensorData_ok]
  refine ⟨_, rfl, newSensorData P now oid, ?_, rfl, ?_⟩
  · by_contra hnot
    have hmem : newSensorData P now oid ∈ sort (-1) (s ++ [newSensorData P now oid]) :=
      (sort_desc_perm _).mem_iff.mpr (by simp)
    have h1 := countP_of_not_mem_take _ (sort_desc_sorted _) 100 _ hmem hnot
    rw [(sort_desc_perm _).countP_eq, List.countP_append] at h1
    have h2 : [newSensorData P now oid].countP
        (fun d => decide ((newSensorData P now oid).timestamp ≤ d.timestamp)) = 1 := by
      simp
    rw [h2] at h1
    have h3 : (newSensorData P now oid).timestamp = P.timestamp.getD now := rfl
    rw [h3] at h1
    omega
  · exact ⟨rfl, rfl, rfl, rfl, rfl, rfl⟩

/-- C6, amended, at a store of two readings and a body without timestamp. -/
theorem post_then_get_includes_new_witness :
    ∃ data : List Reading,
      getSensorData (postSensorData [bare 1 100, bare 2 300] 200
        ⟨some 7, none, none, none, some 31, none⟩ 3 false).1 false = Response.json 200 data ∧
      ∃ r ∈ data, r._id = 3 ∧ matchesBody ⟨some 7, none, none, none, some 31, none⟩ 200 r :=
  post_then_get_includes_new [bare 1 100, bare 2 300] 200
    ⟨some 7, none, none, none, some 31, none⟩ 3 false (by decide) (by decide)

/-! ## The exported sheet -/

theorem mem_rest (o : Obj) (kv : String × Value) :
    kv ∈ rest o ↔ kv ∈ o ∧ kv.1 ≠ "_id" ∧ kv.1 ≠ "__v" := by
  simp [rest, List.mem_filter]

theorem mem_foldl_keys (o : Obj) (hdr : List String) (k : String) :
    k ∈ o.foldl (fun h kv => if kv.1 ∈ h then h else h ++ [kv.1]) hdr
      ↔ k ∈ hdr ∨ ∃ kv ∈ o, kv.1 = k := by
  induction o generalizing hdr with
  | nil => simp
  | cons kv o ih =>
    rw [List.foldl_cons, ih]
    by_cases hk : kv.1 ∈ hdr
    · simp only [hk, if_true, List.mem_cons, exists_eq_or_imp]
      constructor
      · rintro (h | h)
        · exact Or.inl h
        · exact Or.inr (Or.inr h)
      · rintro (h | h | h)
        · exact Or.inl h
        · exact Or.inl (h ▸ hk)
        · exact Or.inr h
    · simp only [hk, if_false, List.mem_append, List.mem_singleton, List.mem_cons,
        List.not_mem_nil, or_false, exists_eq_or_imp]
      constructor
      · rintro ((h | h) | h)
        · exact Or.inl h
        · exact Or.inr (Or.inl h.symm)
        · exact Or.inr (Or.inr h)
      · rintro (h | h | h)
        · exact Or.inl (Or.inl h)
        · exact Or.inl (Or.inr h.symm)
        · exact Or.inr h

theorem mem_foldl_header (data : List Obj) (hdr : List String) (k : String) :
    k ∈ data.foldl
        (fun hdr o => o.foldl (fun h kv => if kv.1 ∈ h then h else h ++ [kv.1]) hdr) hdr
      ↔ k ∈ hdr ∨ ∃ o ∈ data, ∃ kv ∈ o, kv.1 = k := by
  induction data generalizing hdr with
  | nil => simp
  | cons o data ih =>
    rw [List.foldl_cons, ih, mem_foldl_keys]
    simp only [List.mem_cons, exists_eq_or_imp]
    exact or_assoc

theorem mem_headerOf (data : List Obj) (k : String) :
    k ∈ headerOf data ↔ ∃ o ∈ data, ∃ kv ∈ o, kv.1 = k := by
  unfold headerOf
  rw [mem_foldl_header]
  simp

/-- The keys of a cleaned record: `timestamp` and the numeric paths that are set. -/
theorem keys_rest_toObject (d : Reading) (k : String) :
    (∃ kv ∈ rest d.toObject, kv.1 = k) ↔
      k = "timestamp" ∨ (k = "ph" ∧ d.ph ≠ none) ∨ (k = "pressure1" ∧ d.pressure1 ≠ none) ∨
      (k = "pressure2" ∧ d.pressure2 ≠ none) ∨ (k = "pressure3" ∧ d.pressure3 ≠ none) ∨
      (k = "temperature" ∧ d.temperature ≠ none) := by
  obtain ⟨oid, ph, p1, p2, p3, t, ts, v⟩ := d
  cases ph <;> cases p1 <;> cases p2 <;> cases p3 <;> cases t <;>
    simp [rest, Reading.toObject, optField, eq_comm, or_comm, or_left_comm]

/-- The only branches of the route that answer a file. -/
theorem file_inv (s : Store) (now : Int) (env : ExportEnv) (code : Nat) (fn : String)
    (wb : Sheet) (h : (exportAndDelete s now env).response = Response.file code fn wb) :
    wb = json_to_sheet (cleanData (findLastTenMinutes s now)) ∧
    (exportAndDelete s now env).dataToExport = findLastTenMinutes s now ∧
    findLastTenMinutes s now ≠ [] := by
  rw [export_unfold] at h ⊢
  by_cases h1 : env.queryFails = true
  · simp [h1, exportFailed] at h
  by_cases h2 : findLastTenMinutes s now = []
  · simp [h1, h2, nothingToExport] at h
  by_cases h3 : env.writeThrows = true
  · simp [h1, h2, h3, exportFailed] at h
  by_cases h4 : env.delivery = Delivery.finish
  · simp only [h1, h2, h3, h4, if_false, if_true, Bool.false_eq_true,
      Response.file.injEq] at h ⊢
    exact ⟨h.2.2.symm, trivial, h2⟩
  · simp only [h1, h2, h3, h4, if_false, Bool.false_eq_true, Response.file.injEq] at h ⊢
    exact ⟨h.2.2.symm, trivial, h2⟩

/-- C7, as stated, fails: the export of a reading with every path set has the header
`ph, pressure1, pressure2, pressure3, temperature, timestamp` (the schema path is named
`ph`, and `acidity` is no column), and the export of a reading that has only `ph` set
has the header `ph, timestamp`. -/
theorem header_names_ph_not_acidity :
    (∃ fn wb, (exportAndDelete [fullReading] 2000000 happy).response = Response.file 200 fn wb ∧
      wb.header = ["ph", "pressure1", "pressure2", "pressure3", "temperature", "timestamp"] ∧
      "acidity" ∉ wb.header ∧
      ¬ (∀ k, k ∈ wb.header ↔
          k ∈ ["acidity", "pressure1", "pressure2", "pressure3", "temperature", "timestamp"])) ∧
    (∃ fn wb, (exportAndDelete [⟨1, some 7, none, none, none, none, 1700000, 0⟩] 2000000
        happy).response = Response.file 200 fn wb ∧
      wb.header = ["ph", "timestamp"]) := by
  refine ⟨⟨filename 0,
    ⟨["ph", "pressure1", "pressure2", "pressure3", "temperature", "timestamp"],
      [[("ph", Value.number 7), ("pressure1", Value.number 101), ("pressure2", Value.number 102),
        ("pressure3", Value.number 103), ("temperature", Value.number 35),
        ("timestamp", Value.date 1700000)]]⟩, by decide, rfl, by decide, ?_⟩,
    ⟨filename 0,
      ⟨["ph", "timestamp"], [[("ph", Value.number 7), ("timestamp", Value.date 1700000)]]⟩,
      by decide, rfl⟩⟩
  intro h
  exact absurd ((h "acidity").mpr (by decide)) (by decide)

/-- C7, amended. In every export that answers a file, the rows are the queried readings
without their `_id` and `__v`: no row has either key, every other key of a queried
reading is kept with its value, and the header row holds exactly `timestamp` and those
of `ph`, `pressure1`, `pressure2`, `pressure3`, `temperature` that at least one exported
reading has set. -/
theorem exported_sheet_fields (s : Store) (now : Int) (env : ExportEnv) (fn : String)
    (wb : Sheet) (h : (exportAndDelete s now env).response = Response.file 200 fn wb) :
    wb.rows = (exportAndDelete s now env).dataToExport.map (fun d => rest d.toObject) ∧
    (∀ row ∈ wb.rows, ∀ kv ∈ row, kv.1 ≠ "_id" ∧ kv.1 ≠ "__v") ∧
    (∀ d ∈ (exportAndDelete s now env).dataToExport, ∀ kv ∈ d.toObject,
      kv.1 ≠ "_id" → kv.1 ≠ "__v" → kv ∈ rest d.toObject) ∧
    (∀ k, k ∈ wb.header ↔
      k = "timestamp" ∨
      (k = "ph" ∧ ∃ d ∈ (exportAndDelete s now env).dataToExport, d.ph ≠ none) ∨
      (k = "pressure1" ∧ ∃ d ∈ (exportAndDelete s now env).dataToExport, d.pressure1 ≠ none) ∨
      (k = "pressure2" ∧ ∃ d ∈ (exportAndDelete s now env).dataToExport, d.pressure2 ≠ none) ∨
      (k = "pressure3" ∧ ∃ d ∈ (exportAndDelete s now env).dataToExport, d.pressure3 ≠ none) ∨
      (k = "temperature" ∧
        ∃ d ∈ (exportAndDelete s now env).dataToExport, d.temperature ≠ none)) := by
  obtain ⟨hwb, hdata, hne⟩ := file_inv s now env 200 fn wb h
  rw [hdata, hwb]
  refine ⟨rfl, ?_, ?_, ?_⟩
  · intro row hrow kv hkv
    simp only [json_to_sheet, cleanData, List.mem_map] at hrow
    obtain ⟨d, -, rfl⟩ := hrow
    exact ((mem_rest _ _).mp hkv).2
  · intro d _ kv hkv h1 h2
    exact (mem_rest _ _).mpr ⟨hkv, h1, h2⟩
  · intro k
    obtain ⟨d0, hd0⟩ := List.exists_mem_of_ne_nil _ hne
    simp only [json_to_sheet, mem_headerOf, cleanData, List.mem_map, exists_exists_and_eq_and,
      keys_rest_toObject]
    constructor
    · rintro ⟨d, hd, hk | ⟨hk, hv⟩ | ⟨hk, hv⟩ | ⟨hk, hv⟩ | ⟨hk, hv⟩ | ⟨hk, hv⟩⟩
      · exact Or.inl hk
      · exact Or.inr (Or.inl ⟨hk, d, hd, hv⟩)
      · exact Or.inr (Or.inr (Or.inl ⟨hk, d, hd, hv⟩))
      · exact Or.inr (Or.inr (Or.inr (Or.inl ⟨hk, d, hd, hv⟩)))
      · exact Or.inr (Or.inr (Or.inr (Or.inr (Or.inl ⟨hk, d, hd, hv⟩))))
      · exact Or.inr (Or.inr (Or.inr (Or.inr (Or.inr ⟨hk, d, hd, hv⟩))))
    · rintro (hk | ⟨hk, d, hd, hv⟩ | ⟨hk, d, hd, hv⟩ | ⟨hk, d, hd, hv⟩ | ⟨hk, d, hd, hv⟩ |
        ⟨hk, d, hd, hv⟩)
      · exact ⟨d0, hd0, Or.inl hk⟩
      · exact ⟨d, hd, Or.inr (Or.inl ⟨hk, hv⟩)⟩
      · exact ⟨d, hd, Or.inr (Or.inr (Or.inl ⟨hk, hv⟩))⟩
      · exact ⟨d, hd, Or.inr (Or.inr (Or.inr (Or.inl ⟨hk, hv⟩)))⟩
      · exact ⟨d, hd, Or.inr (Or.inr (Or.inr (Or.inr (Or.inl ⟨hk, hv⟩))))⟩
      · exact ⟨d, hd, Or.inr (Or.inr (Or.inr (Or.inr (Or.inr ⟨hk, hv⟩))))⟩

/-- C7, amended, at the export of one reading that has only `ph` set beside its
timestamp: the header is `ph, timestamp`. -/
theorem exported_sheet_fields_witness :
    (exportAndDelete [⟨1, some 7, none, none, none, none, 1700000, 0⟩] 2000000 happy).response
      = Response.file 200 (filename 0)
          ⟨["ph", "timestamp"], [[("ph", Value.number 7), ("timestamp", Value.date 1700000)]]⟩ ∧
    ∀ row ∈ [[("ph", Value.number 7), ("timestamp", Value.date 1700000)]],
      ∀ kv ∈ row, kv.1 ≠ "_id" ∧ kv.1 ≠ "__v" :=
  ⟨by decide,
    (exported_sheet_fields [⟨1, some 7, none, none, none, none, 1700000, 0⟩] 2000000 happy
      (filename 0)
      ⟨["ph", "timestamp"], [[("ph", Value.number 7), ("timestamp", Value.date 1700000)]]⟩
      (by decide)).2.1⟩

/-! ## Failing store calls -/

/-- The failures the routes await inside their `try`: a rejected or duplicate insert of
`POST /sensorData`, a rejected query of `GET /sensorData` and a rejected query of
`GET /export-and-delete` are each answered status 500 with a body
`{status: 'error', message}`. -/
theorem caught_failures_answer_500 (s : Store) (now : Int) (body : ReqBody) (oid : Nat)
    (fails : Bool) (env : ExportEnv) :
    ((∃ e, save s (newSensorData body now oid) fails = Except.error e) →
      (postSensorData s now body oid fails).2
        = Response.send 500 ⟨"error", "Failed to save data"⟩) ∧
    getSensorData s true = Response.send 500 ⟨"error", "Failed to fetch data"⟩ ∧
    (env.queryFails = true →
      (exportAndDelete s now env).response
        = Response.send 500 ⟨"error", "Failed to complete data export and deletion."⟩) := by
  refine ⟨?_, ?_, ?_⟩
  · rintro ⟨e, he⟩
    simp only [postSensorData, he]
  · simp [getSensorData, await]
  · intro hq
    rw [export_unfold]
    simp [hq, exportFailed]

/-- C8. The code at the failing input, a store of two readings whose export is
delivered and whose `deleteMany` then rejects: the caller has been answered the file
with status 200 and gets no 500, the rejection is raised in the `finish` listener where
nothing catches it, and the process serves nothing after it (the `GET /sensorData` that
follows gets no answer).  At the same store a rejected insert, a rejected
`GET /sensorData` query and a rejected export query are each caught and answered 500. -/
theorem delete_failure_escapes_the_route :
    (exportAndDelete [bare 1 100, bare 2 600100] 1200000
        ⟨false, false, 1200001, [], Delivery.finish, true, []⟩).response
      = Response.file 200 "BioGas_Data_Export_1970-01-01_00-20-00-001Z.xlsx"
          ⟨["timestamp"], [[("timestamp", Value.date 600100)]]⟩ ∧
    (exportAndDelete [bare 1 100, bare 2 600100] 1200000
        ⟨false, false, 1200001, [], Delivery.finish, true, []⟩).deletion
      = Deletion.rejected [2] ∧
    processEnded (exportAndDelete [bare 1 100, bare 2 600100] 1200000
        ⟨false, false, 1200001, [], Delivery.finish, true, []⟩).deletion = true ∧
    ((run [bare 1 100, bare 2 600100]
        [(1200000, Request.exportPurge ⟨false, false, 1200001, [], Delivery.finish, true, []⟩),
          (1200002, Request.recent false)]).2.map (fun sv => sv.response))
      = [Response.file 200 "BioGas_Data_Export_1970-01-01_00-20-00-001Z.xlsx"
          ⟨["timestamp"], [[("timestamp", Value.date 600100)]]⟩] ∧
    (postSensorData [bare 1 100, bare 2 600100] 1200000
        ⟨some 7, none, none, none, none, none⟩ 3 true).2
      = Response.send 500 ⟨"error", "Failed to save data"⟩ ∧
    getSensorData [bare 1 100, bare 2 600100] true
      = Response.send 500 ⟨"error", "Failed to fetch data"⟩ ∧
    (exportAndDelete [bare 1 100, bare 2 600100] 1200000
        ⟨true, false, 1200001, [], Delivery.finish, false, []⟩).response
      = Response.send 500 ⟨"error", "Failed to complete data export and deletion."⟩ := by
  refine ⟨by decide, by decide, by decide, by decide, by decide, by decide, by decide⟩

/-! ## The filename -/

theorem split_ne_nil (sep : Char) (l : List Char) : split sep l ≠ [] := by
  cases l with
  | nil => simp [split]
  | cons c cs =>
    unfold split
    by_cases h : c = sep
    · simp [h]
    · simp only [h, if_false]
      split <;> simp

theorem join_cons_cons (sep c : Char) (piece : List Char) (pieces : List (List Char)) :
    join sep ((c :: piece) :: pieces) = c :: join sep (piece :: pieces) := by
  cases pieces <;> simp [join]

/-- Splitting at a character and joining with another replaces the one by the other. -/
theorem join_split (a b : Char) (l : List Char) :
    join b (split a l) = l.map (fun c => if c = a then b else c) := by
  induction l with
  | nil => simp [split, join]
  | cons c cs ih =>
    unfold split
    by_cases h : c = a
    · simp only [h, if_true, List.map_cons]
      obtain ⟨p, ps, hp⟩ := List.exists_cons_of_ne_nil (split_ne_nil a cs)
      rw [hp] at ih ⊢
      simp only [join, List.nil_append]
      rw [ih]
    · simp only [h, if_false, List.map_cons]
      obtain ⟨p, ps, hp⟩ := List.exists_cons_of_ne_nil (split_ne_nil a cs)
      rw [hp] at ih ⊢
      simp only [join_cons_cons]
      rw [ih]

theorem dateStr_eq_map (now : Int) : dateStr now = (toISOString now).map safeChar := by
  unfold dateStr replaceColonPeriod
  rw [join_split, List.map_map]
  rfl

theorem safeChar_ne (c : Char) : safeChar c ≠ ':' ∧ safeChar c ≠ '.' ∧ safeChar c ≠ 'T' := by
  unfold safeChar
  by_cases h1 : c = ':' ∨ c = '.'
  · simp only [h1, if_true]
    decide
  · have h2 : c ≠ ':' ∧ c ≠ '.' := by
      constructor
      · intro h; exact h1 (Or.inl h)
      · intro h; exact h1 (Or.inr h)
    simp only [h1, if_false]
    by_cases h3 : c = 'T'
    · simp only [h3, if_true]
      decide
    · simp only [h3, if_false]
      exact ⟨h2.1, h2.2, h3⟩

theorem safeChar_digit (d : Nat) : safeChar (digitChar d) = digitChar d := by
  unfold digitChar
  have h : d % 10 < 10 := Nat.mod_lt _ (by decide)
  generalize d % 10 = k at h
  interval_cases k <;> decide

theorem digitChar_inj (a b : Nat) (h : digitChar a = digitChar b) : a % 10 = b % 10 := by
  unfold digitChar at h
  have ha : a % 10 < 10 := Nat.mod_lt _ (by decide)
  have hb : b % 10 < 10 := Nat.mod_lt _ (by decide)
  generalize a % 10 = x at h ha
  generalize b % 10 = y at h hb
  interval_cases x <;> interval_cases y <;> first | rfl | (exact absurd h (by decide))

theorem pad_three (n : Nat) :
    pad 3 n = [digitChar (n / 100), digitChar (n / 10), digitChar n] := by
  simp [pad, List.range_succ]

theorem pad_three_inj (m n : Nat) (hm : m < 1000) (hn : n < 1000) (h : pad 3 m = pad 3 n) :
    m = n := by
  rw [pad_three, pad_three] at h
  simp only [List.cons.injEq, and_true] at h
  obtain ⟨h1, h2, h3⟩ := h
  have e1 := digitChar_inj _ _ h1
  have e2 := digitChar_inj _ _ h2
  have e3 := digitChar_inj _ _ h3
  omega

theorem filename_inj (t1 t2 : Int) (h : filename t1 = filename t2) :
    dateStr t1 = dateStr t2 := by
  unfold filename at h
  have h2 := congrArg String.data h
  simp only [String.data_append] at h2
  exact List.append_cancel_left (List.append_cancel_right h2)

/-- C9, as stated, fails: two instants of the same second, 123 milliseconds apart, get
different filenames, because the milliseconds of the ISO string are kept. -/
theorem filename_differs_within_a_second :
    (1700000000000 : Int) / 1000 = 1700000000123 / 1000 ∧
    filename 1700000000000 = "BioGas_Data_Export_2023-11-14_22-13-20-000Z.xlsx" ∧
    filename 1700000000123 = "BioGas_Data_Export_2023-11-14_22-13-20-123Z.xlsx" ∧
    filename 1700000000000 ≠ filename 1700000000123 := by
  refine ⟨by decide, by decide, by decide, by decide⟩

/-- C9, amended. The time embedded in the filename is the ISO string of the wall-clock
time down to the millisecond: within one second, two instants get the same filename
exactly when they are the same millisecond.  Every colon and period of the ISO string is
replaced by `-` and its `T` by `_`, so the time part of the filename has no `:` and
no `.`. -/
theorem filename_time_part (now : Int) :
    filename now = "BioGas_Data_Export_" ++ String.mk (dateStr now) ++ ".xlsx" ∧
    dateStr now = (toISOString now).map safeChar ∧
    ':' ∉ dateStr now ∧ '.' ∉ dateStr now ∧
    ∀ other : Int, now / 1000 = other / 1000 →
      (filename now = filename other ↔ now = other) := by
  refine ⟨rfl, dateStr_eq_map now, ?_, ?_, ?_⟩
  · rw [dateStr_eq_map]
    intro h
    obtain ⟨c, -, hc⟩ := List.mem_map.mp h
    exact (safeChar_ne c).1 hc
  · rw [dateStr_eq_map]
    intro h
    obtain ⟨c, -, hc⟩ := List.mem_map.mp h
    exact (safeChar_ne c).2.1 hc
  · intro other hsec
    constructor
    · intro h
      have hd := filename_inj now other h
      rw [dateStr_eq_map, dateStr_eq_map] at hd
      unfold toISOString at hd
      rw [hsec] at hd
      simp only [List.map_append, List.map_cons] at hd
      have hd2 := List.append_cancel_left (List.append_cancel_right hd)
      simp only [List.cons.injEq, true_and] at hd2
      have hd3 := hd2
      have hfix : ∀ n : Nat, (pad 3 n).map safeChar = pad 3 n := by
        intro n
        rw [pad_three]
        simp [safeChar_digit]
      rw [hfix, hfix] at hd3
      have hlt1 : (now % 1000).toNat < 1000 := by omega
      have hlt2 : (other % 1000).toNat < 1000 := by omega
      have := pad_three_inj _ _ hlt1 hlt2 hd3
      omega
    · intro h
      rw [h]

/-- C9, amended, at two instants of one second: no colon in the time part, and the
filenames are equal only if the instants are. -/
theorem filename_time_part_witness :
    ':' ∉ dateStr 1700000000123 ∧
    (filename 1700000000123 = filename 1700000000456
      ↔ (1700000000123 : Int) = 1700000000456) :=
  ⟨(filename_time_part 1700000000123).2.2.1,
    (filename_time_part 1700000000123).2.2.2.2 1700000000456 (by decide)⟩

/-! ## Readings that have left the window -/

theorem filter_unique (s : Store) (f : Reading → Bool) (hu : UniqueIds s) :
    UniqueIds (s.filter f) := by
  unfold UniqueIds at *
  exact hu.sublist ((List.filter_sublist s).map _)

/-- The store after one invocation of the workflow, and the identities of its deletion. -/
theorem export_store_cases (s : Store) (now : Int) (env : ExportEnv) :
    ((exportAndDelete s now env).store = s ∨
      (exportAndDelete s now env).store = servePosts s env.appended ∨
      ∃ gone : List Nat, (∀ i ∈ gone, i ∈ (findLastTenMinutes s now).map (fun d => d._id)) ∧
        (exportAndDelete s now env).store
          = (servePosts s env.appended).filter (fun d => decide (d._id ∉ gone))) ∧
    (∀ ids n, (exportAndDelete s now env).deletion = Deletion.deleted ids n →
      ids = (findLastTenMinutes s now).map (fun d => d._id)) := by
  refine ⟨?_, fun ids n h => (deleted_inv s now env ids n h).2.1⟩
  rw [export_unfold]
  split_ifs
  · exact Or.inl rfl
  · exact Or.inl rfl
  · exact Or.inl rfl
  · exact Or.inr (Or.inr (onFinish_store (servePosts s env.appended)
      (findLastTenMinutes s now) env.deleteFails env.removedOnReject))
  · exact Or.inr (Or.inl rfl)

/-- One invocation at a clock for which `r` is older than the window keeps `r`, keeps
the identities unique, does not export `r` and does not delete its identity. -/
theorem step_keeps_old (s : Store) (now : Int) (q : Request) (r : Reading)
    (hu : UniqueIds s) (hr : r ∈ s) (hold : r.timestamp < now - 600000) :
    r ∈ (step s now q).1 ∧ UniqueIds (step s now q).1 ∧
    r ∉ (step s now q).2.dataToExport ∧
    ∀ ids n, (step s now q).2.deletion = Deletion.deleted ids n → r._id ∉ ids := by
  cases q with
  | ingest body oid fails =>
    refine ⟨post_mem s now body oid fails hr, post_unique s now body oid fails hu, ?_, ?_⟩
    · simp [step]
    · intro ids n h
      simp [step] at h
  | recent fails =>
    refine ⟨hr, hu, ?_, ?_⟩
    · simp [step]
    · intro ids n h
      simp [step] at h
  | exportPurge env =>
    have hnotin : r._id ∉ (findLastTenMinutes s now).map (fun d => d._id) := by
      intro hc
      obtain ⟨e, he, hid⟩ := List.mem_map.mp hc
      obtain ⟨hes, hets⟩ := mem_findLastTenMinutes.mp he
      have : e = r := eq_of_id_eq hu hes hr hid
      subst this
      omega
    obtain ⟨hstore, hids⟩ := export_store_cases s now env
    have hr1 := servePosts_mem env.appended s hr
    have hu1 := servePosts_unique env.appended s hu
    simp only [step]
    refine ⟨?_, ?_, ?_, ?_⟩
    · rcases hstore with h | h | ⟨gone, hgone, h⟩ <;> rw [h]
      · exact hr
      · exact hr1
      · exact List.mem_filter.mpr ⟨hr1, decide_eq_true (fun hc => hnotin (hgone _ hc))⟩
    · rcases hstore with h | h | ⟨gone, hgone, h⟩ <;> rw [h]
      · exact hu
      · exact hu1
      · exact filter_unique _ _ hu1
    · intro hc
      have := (dataToExport_subset s now env hc).2
      omega
    · intro ids n h
      rw [hids ids n h]
      exact hnotin

theorem run_keeps_old (trace : List (Int × Request)) (s : Store) (r : Reading)
    (hu : UniqueIds s) (hr : r ∈ s) (hold : ∀ q ∈ trace, r.timestamp < q.1 - 600000) :
    r ∈ (run s trace).1 ∧
    ∀ sv ∈ (run s trace).2, r ∉ sv.dataToExport ∧
      ∀ ids n, sv.deletion = Deletion.deleted ids n → r._id ∉ ids := by
  induction trace generalizing s with
  | nil => simp [run, hr]
  | cons q more ih =>
    obtain ⟨now, req⟩ := q
    obtain ⟨h1, h2, h3, h4⟩ := step_keeps_old s now req r hu hr (hold (now, req) (by simp))
    obtain ⟨i1, i2⟩ := ih (step s now req).1 h2 h1
      (fun q hq => hold q (List.mem_cons_of_mem _ hq))
    simp only [run]
    split_ifs
    · refine ⟨h1, ?_⟩
      intro sv hsv
      rw [List.mem_singleton.mp hsv]
      exact ⟨h3, h4⟩
    · refine ⟨i1, ?_⟩
      intro sv hsv
      rcases List.mem_cons.mp hsv with h | h
      · rw [h]; exact ⟨h3, h4⟩
      · exact i2 sv h

/-- C10. In every sequence of invocations of the three routes under a non-decreasing
clock, a stored reading that is older than (clock - 10 minutes) at the start of an
invocation is in the store, unchanged, after that and after every later invocation, is
in the result of no export query from then on, and its identity is given to no
deletion. -/
theorem old_reading_is_never_exported_nor_purged (s : Store) (r : Reading) (t0 : Int)
    (q0 : Request) (later : List (Int × Request))
    (hu : UniqueIds s) (hr : r ∈ s) (hold : r.timestamp < t0 - 10 * 60 * 1000)
    (hclock : (t0 :: later.map Prod.fst).Sorted (fun a b => a ≤ b)) :
    (∀ k, r ∈ (run s (((t0, q0) :: later).take k)).1) ∧
    (∀ sv ∈ (run s ((t0, q0) :: later)).2, r ∉ sv.dataToExport ∧
      ∀ ids n, sv.deletion = Deletion.deleted ids n → r._id ∉ ids) := by
  have hall : ∀ q ∈ (t0, q0) :: later, r.timestamp < q.1 - 600000 := by
    intro q hq
    rcases List.mem_cons.mp hq with h | h
    · rw [h]; simp only; omega
    · have h0 := (List.pairwise_cons.mp hclock).1 q.1 (List.mem_map.mpr ⟨q, h, rfl⟩)
      omega
  refine ⟨?_, (run_keeps_old _ s r hu hr hall).2⟩
  intro k
  exact (run_keeps_old _ s r hu hr (fun q hq => hall q (List.mem_of_mem_take hq))).1

/-- C10, at a run of an export, an ingestion, a failed export and a last export: the
reading of timestamp 100 is kept throughout while the others are exported and purged. -/
theorem old_reading_is_never_exported_nor_purged_witness :
    (run [bare 1 100, bare 2 800000]
      [(1200000, Request.exportPurge happy),
        (1200100, Request.ingest ⟨some 7, none, none, none, none, none⟩ 3 false),
        (1200200, Request.exportPurge ⟨false, false, 1200201, [], Delivery.error, false, []⟩),
        (1200300, Request.recent false),
        (1200400, Request.exportPurge happy)]).1 = [bare 1 100] ∧
    ∀ k, bare 1 100 ∈ (run [bare 1 100, bare 2 800000]
      ([(1200000, Request.exportPurge happy),
        (1200100, Request.ingest ⟨some 7, none, none, none, none, none⟩ 3 false),
        (1200200, Request.exportPurge ⟨false, false, 1200201, [], Delivery.error, false, []⟩),
        (1200300, Request.recent false),
        (1200400, Request.exportPurge happy)].take k)).1 :=
  ⟨by decide,
    (old_reading_is_never_exported_nor_purged [bare 1 100, bare 2 800000] (bare 1 100) 1200000
      (Request.exportPurge happy)
      [(1200100, Request.ingest ⟨some 7, none, none, none, none, none⟩ 3 false),
        (1200200, Request.exportPurge ⟨false, false, 1200201, [], Delivery.error, false, []⟩),
        (1200300, Request.recent false),
        (1200400, Request.exportPurge happy)]
      (by decide) (by decide) (by decide) (by decide)).1⟩

end Biogas
